import Mathlib

/-!
Shallow embedding of the `healexer` scanner (`src/healexer/src/lib.rs`).

The Rust scanner walks a peekable char iterator with mutable `row`/`col`
counters (both starting at 1), pushing tokens into a vector and finally an
`Eof` token.  Panics (unterminated string, unterminated block comment,
unknown char) are modelled as an `Except` error value.  The main `while`
loop is modelled with explicit fuel (each iteration consumes at least one
character, so `length + 1` fuel always suffices); the inner loops
(identifier/number munching, string scanning, comment skipping) are
structurally recursive helper functions.
-/

namespace Healexer

/-- Mirrors the Rust `Position` struct: `start` and `end` are `(row, col)`
pairs.  `end` is a Lean keyword, so the field is named `stop`. -/
structure Position where
  start : Nat × Nat
  stop : Nat × Nat
deriving DecidableEq, Repr

/-- Mirrors the Rust `Token` enum.  Rust `String` payloads are carried as
`List Char`. -/
inductive Token where
  | identifier (pos : Position) (val : List Char)
  | numLiteral (pos : Position) (val : List Char)
  | strLiteral (pos : Position) (val : List Char)
  | lParen (pos : Position)
  | rParen (pos : Position)
  | lBrace (pos : Position)
  | rBrace (pos : Position)
  | arrow (pos : Position)
  | fatArrow (pos : Position)
  | eq (pos : Position)
  | eqEq (pos : Position)
  | lt (pos : Position)
  | gt (pos : Position)
  | ltEq (pos : Position)
  | gtEq (pos : Position)
  | addEq (pos : Position)
  | subEq (pos : Position)
  | mulEq (pos : Position)
  | divEq (pos : Position)
  | modEq (pos : Position)
  | rShiftEq (pos : Position)
  | lShiftEq (pos : Position)
  | rShift (pos : Position)
  | lShift (pos : Position)
  | notEq (pos : Position)
  | orEq (pos : Position)
  | andEq (pos : Position)
  | xorEq (pos : Position)
  | add (pos : Position)
  | sub (pos : Position)
  | mul (pos : Position)
  | div (pos : Position)
  | mod (pos : Position)
  | addAdd (pos : Position)
  | subSub (pos : Position)
  | not (pos : Position)
  | xor (pos : Position)
  | or (pos : Position)
  | orOr (pos : Position)
  | and (pos : Position)
  | andAnd (pos : Position)
  | eof (pos : Position)
deriving DecidableEq, Repr

/-- The three panic sites of `tokenize`, as error values.  Each carries the
`row`/`col` counters at the moment of the panic; the unknown-char panic also
carries the character. -/
inductive LexError where
  | unterminatedString (row col : Nat)
  | unterminatedBlockComment (row col : Nat)
  | unrecognizedChar (c : Char) (row col : Nat)
deriving DecidableEq, Repr

/-- Rust guard `c.is_ascii_alphabetic() || c == '_'` (identifier start). -/
def isIdentStart (c : Char) : Bool := c.isAlpha || c = '_'

/-- Rust guard `n.is_ascii_alphanumeric() || *n == '_'` (identifier continuation). -/
def isIdentCont (c : Char) : Bool := c.isAlphanum || c = '_'

/-- The string-literal loop (source lines 110–119): consume characters,
incrementing `col` once per consumed character; stop when a `"` is consumed
(returning the remaining input as `some`), or when input runs out
(`none`, i.e. the unterminated-string panic).  Returns the accumulated
payload, the final `col`, and the remaining input on success. -/
def scanStr : List Char → Nat → List Char × Nat × Option (List Char)
  | [], col => ([], col, none)
  | c :: t, col =>
    if c = '"' then ([], col + 1, some t)
    else (c :: (scanStr t (col + 1)).1, (scanStr t (col + 1)).2)

/-- The block-comment loop (source lines 213–219): repeatedly take
`(chars.next(), chars.peek())`; stop with `break` on `(Some('*'), Some('/'))`
— note the peeked `/` is NOT consumed and stays in the input — and panic
(`none`) when the input runs out. -/
def skipBlock : List Char → Option (List Char)
  | [] => none
  | _ :: [] => none
  | a :: b :: t => if a = '*' ∧ b = '/' then some (b :: t) else skipBlock (b :: t)

/-- `output.push(tok)` followed by the rest of the scan: prepend `tok` to a
successful tail, propagate errors and fuel exhaustion. -/
def emit (tok : Token) : Option (Except LexError (List Token)) → Option (Except LexError (List Token))
  | none => none
  | some (.error e) => some (.error e)
  | some (.ok ts) => some (.ok (tok :: ts))

/-- The result of dispatching on one consumed character: push a token and
continue at the given remaining input and counters, continue without a token
(whitespace and comments), or panic. -/
inductive Step where
  | tok (t : Token) (rest : List Char) (row col : Nat)
  | skip (rest : List Char) (row col : Nat)
  | fail (e : LexError)
deriving DecidableEq, Repr

/-- The identifier arm (source lines 81–92): greedily munch
alphanumeric/underscore characters, incrementing `col` per munched character,
then the end-of-iteration `col += 1`. -/
def identStep (c : Char) (rest : List Char) (row col : Nat) : Step :=
  .tok (.identifier ⟨(row, col), (row, col + (rest.takeWhile isIdentCont).length)⟩
      (c :: rest.takeWhile isIdentCont))
    (rest.dropWhile isIdentCont) row (col + (rest.takeWhile isIdentCont).length + 1)

/-- The digit arm (source lines 94–105): greedily munch digits. -/
def numStep (c : Char) (rest : List Char) (row col : Nat) : Step :=
  .tok (.numLiteral ⟨(row, col), (row, col + (rest.takeWhile Char.isDigit).length)⟩
      (c :: rest.takeWhile Char.isDigit))
    (rest.dropWhile Char.isDigit) row (col + (rest.takeWhile Char.isDigit).length + 1)

/-- The string arm (source lines 106–123), applied to the result of the
string loop `scanStr`: on a terminated literal push `StrLiteral` (span ending
at the closing quote's `col`), otherwise the unterminated-string panic with
the fully advanced `col`.  The loop never updates `row`. -/
def strStep (row col : Nat) (val : List Char) (col' : Nat) : Option (List Char) → Step
  | some rest' => .tok (.strLiteral ⟨(row, col), (row, col')⟩ val) rest' row (col' + 1)
  | none => .fail (.unterminatedString row col')

/-- The `'<'` arm (source lines 128–145): peek for `=` (LtEq), or `<` and then
`=` (LShiftEq / LShift); `next_and!` does not touch `col`, and the span ends
are the source's literal `(row + 1, col + 1)` / `(row + 2, col + 2)`. -/
def ltStep (rest : List Char) (row col : Nat) : Step :=
  if rest.head? = some '=' then
    .tok (.ltEq ⟨(row, col), (row + 1, col + 1)⟩) rest.tail row (col + 1)
  else if rest.head? = some '<' then
    if rest.tail.head? = some '=' then
      .tok (.lShiftEq ⟨(row, col), (row + 2, col + 2)⟩) rest.tail.tail row (col + 1)
    else .tok (.lShift ⟨(row, col), (row + 1, col + 1)⟩) rest.tail row (col + 1)
  else .tok (.lt ⟨(row, col), (row, col)⟩) rest row (col + 1)

/-- The `'>'` arm (source lines 146–163). -/
def gtStep (rest : List Char) (row col : Nat) : Step :=
  if rest.head? = some '=' then
    .tok (.gtEq ⟨(row, col), (row + 1, col + 1)⟩) rest.tail row (col + 1)
  else if rest.head? = some '>' then
    if rest.tail.head? = some '=' then
      .tok (.rShiftEq ⟨(row, col), (row + 2, col + 2)⟩) rest.tail.tail row (col + 1)
    else .tok (.rShift ⟨(row, col), (row + 1, col + 1)⟩) rest.tail row (col + 1)
  else .tok (.gt ⟨(row, col), (row, col)⟩) rest row (col + 1)

/-- The `'+'` arm (source lines 164–174). -/
def addStep (rest : List Char) (row col : Nat) : Step :=
  if rest.head? = some '+' then
    .tok (.addAdd ⟨(row, col), (row + 1, col + 1)⟩) rest.tail row (col + 1)
  else if rest.head? = some '=' then
    .tok (.addEq ⟨(row, col), (row + 1, col + 1)⟩) rest.tail row (col + 1)
  else .tok (.add ⟨(row, col), (row, col)⟩) rest row (col + 1)

/-- The `'-'` arm (source lines 175–186). -/
def subStep (rest : List Char) (row col : Nat) : Step :=
  if rest.head? = some '-' then
    .tok (.subSub ⟨(row, col), (row + 1, col + 1)⟩) rest.tail row (col + 1)
  else if rest.head? = some '=' then
    .tok (.subEq ⟨(row, col), (row + 1, col + 1)⟩) rest.tail row (col + 1)
  else if rest.head? = some '>' then
    .tok (.arrow ⟨(row, col), (row + 1, col + 1)⟩) rest.tail row (col + 1)
  else .tok (.sub ⟨(row, col), (row, col)⟩) rest row (col + 1)

/-- The `'*'` arm (source lines 187–196). -/
def mulStep (rest : List Char) (row col : Nat) : Step :=
  if rest.head? = some '=' then
    .tok (.mulEq ⟨(row, col), (row + 1, col + 1)⟩) rest.tail row (col + 1)
  else .tok (.mul ⟨(row, col), (row, col)⟩) rest row (col + 1)

/-- The `'/'` arm (source lines 197–228).  A line comment consumes through
(but not including) the next newline and skips the end-of-iteration
`col += 1`; a block comment defers to `skipBlock` (which leaves the closing
`/` in the input) or panics; otherwise `/=` or `/`. -/
def divStep (rest : List Char) (row col : Nat) : Step :=
  if rest.head? = some '/' then
    .skip (rest.dropWhile (fun x => x ≠ '\n')) row col
  else if rest.head? = some '*' then
    match skipBlock rest with
    | some rest' => .skip rest' row col
    | none => .fail (.unterminatedBlockComment row col)
  else if rest.head? = some '=' then
    .tok (.divEq ⟨(row, col), (row + 1, col + 1)⟩) rest.tail row (col + 1)
  else .tok (.div ⟨(row, col), (row, col)⟩) rest row (col + 1)

/-- The `'='` arm (source lines 229–239). -/
def eqStep (rest : List Char) (row col : Nat) : Step :=
  if rest.head? = some '=' then
    .tok (.eqEq ⟨(row, col), (row + 1, col + 1)⟩) rest.tail row (col + 1)
  else if rest.head? = some '>' then
    .tok (.fatArrow ⟨(row, col), (row + 1, col + 1)⟩) rest.tail row (col + 1)
  else .tok (.eq ⟨(row, col), (row, col)⟩) rest row (col + 1)

/-- The `'!'` arm (source lines 240–249). -/
def bangStep (rest : List Char) (row col : Nat) : Step :=
  if rest.head? = some '=' then
    .tok (.notEq ⟨(row, col), (row + 1, col + 1)⟩) rest.tail row (col + 1)
  else .tok (.not ⟨(row, col), (row, col)⟩) rest row (col + 1)

/-- The `'|'` arm (source lines 250–260). -/
def orStep (rest : List Char) (row col : Nat) : Step :=
  if rest.head? = some '=' then
    .tok (.orEq ⟨(row, col), (row + 1, col + 1)⟩) rest.tail row (col + 1)
  else if rest.head? = some '|' then
    .tok (.orOr ⟨(row, col), (row + 1, col + 1)⟩) rest.tail row (col + 1)
  else .tok (.or ⟨(row, col), (row, col)⟩) rest row (col + 1)

/-- The `'&'` arm (source lines 261–271). -/
def andStep (rest : List Char) (row col : Nat) : Step :=
  if rest.head? = some '=' then
    .tok (.andEq ⟨(row, col), (row + 1, col + 1)⟩) rest.tail row (col + 1)
  else if rest.head? = some '&' then
    .tok (.andAnd ⟨(row, col), (row + 1, col + 1)⟩) rest.tail row (col + 1)
  else .tok (.and ⟨(row, col), (row, col)⟩) rest row (col + 1)

/-- The `'^'` arm (source lines 272–281). -/
def xorStep (rest : List Char) (row col : Nat) : Step :=
  if rest.head? = some '=' then
    .tok (.xorEq ⟨(row, col), (row + 1, col + 1)⟩) rest.tail row (col + 1)
  else .tok (.xor ⟨(row, col), (row, col)⟩) rest row (col + 1)

/-- The `'%'` arm (source lines 282–291). -/
def modStep (rest : List Char) (row col : Nat) : Step :=
  if rest.head? = some '=' then
    .tok (.modEq ⟨(row, col), (row + 1, col + 1)⟩) rest.tail row (col + 1)
  else .tok (.mod ⟨(row, col), (row, col)⟩) rest row (col + 1)

/-- The body of the `match char` dispatch of `tokenize` (source lines 74–293),
for one consumed character `c` at counters `(row, col)` with remaining input
`rest`.  `peek()` is `rest.head?` and the `next()` of `next_and!` is
`rest.tail`.  The end-of-iteration `col += 1` (source line 295) is folded into
each returned counter pair; the comment branches `continue`, skipping it, and
`\n` sets `row += 1; col = 1` before the footer increment runs, so the first
character of a new line is scanned at `col = 2`. -/
def step (c : Char) (rest : List Char) (row col : Nat) : Step :=
  if c = ' ' ∨ c = '\t' then .skip rest row (col + 1)
  else if c = '\n' then .skip rest (row + 1) 2
  else if isIdentStart c then identStep c rest row col
  else if c.isDigit then numStep c rest row col
  else if c = '"' then
    strStep row col (scanStr rest col).1 (scanStr rest col).2.1 (scanStr rest col).2.2
  else if c = '(' then .tok (.lParen ⟨(row, col), (row, col)⟩) rest row (col + 1)
  else if c = ')' then .tok (.rParen ⟨(row, col), (row, col)⟩) rest row (col + 1)
  else if c = '{' then .tok (.lBrace ⟨(row, col), (row, col)⟩) rest row (col + 1)
  else if c = '}' then .tok (.rBrace ⟨(row, col), (row, col)⟩) rest row (col + 1)
  else if c = '<' then ltStep rest row col
  else if c = '>' then gtStep rest row col
  else if c = '+' then addStep rest row col
  else if c = '-' then subStep rest row col
  else if c = '*' then mulStep rest row col
  else if c = '/' then divStep rest row col
  else if c = '=' then eqStep rest row col
  else if c = '!' then bangStep rest row col
  else if c = '|' then orStep rest row col
  else if c = '&' then andStep rest row col
  else if c = '^' then xorStep rest row col
  else if c = '%' then modStep rest row col
  else .fail (.unrecognizedChar c row col)

/-- The `while let Some(char) = chars.next()` loop of `tokenize` (source
lines 73–296) with explicit fuel: consume one character, dispatch via `step`,
and on end of input push the `Eof` token (source line 298). -/
def scan : Nat → List Char → Nat → Nat → Option (Except LexError (List Token))
  | 0, _, _, _ => none
  | _ + 1, [], row, col => some (.ok [.eof ⟨(row, col), (row, col)⟩])
  | fuel + 1, c :: rest, row, col =>
    match step c rest row col with
    | .tok t rest' row' col' => emit t (scan fuel rest' row' col')
    | .skip rest' row' col' => scan fuel rest' row' col'
    | .fail e => some (.error e)


/-- The union of the dispatch guards of `step`: the recognized alphabet. -/
def recognized (c : Char) : Bool :=
  c = ' ' || c = '\t' || c = '\n' || isIdentStart c || c.isDigit || c = '"' ||
  c = '(' || c = ')' || c = '{' || c = '}' ||
  c = '<' || c = '>' || c = '+' || c = '-' || c = '*' || c = '/' ||
  c = '=' || c = '!' || c = '|' || c = '&' || c = '^' || c = '%'

/-- What one dispatch step guarantees: a pushed token is never `Eof` and the
remaining input never grows; a skip never grows the input; a panic is one of
the three error kinds, the unknown-char one reporting exactly the dispatched
character and counters and firing only outside the recognized alphabet. -/
def StepOK (c : Char) (rest : List Char) (row col : Nat) : Step → Prop
  | .tok t rest' _ _ => rest'.length ≤ rest.length ∧ ∀ p, t ≠ .eof p
  | .skip rest' _ _ => rest'.length ≤ rest.length
  | .fail e =>
    (∃ k, e = .unterminatedString row k) ∨
    e = .unterminatedBlockComment row col ∨
    (e = .unrecognizedChar c row col ∧ recognized c = false)

/-- The Rust `tokenize` (source lines 69–300): scan the whole input starting
at `row = 1`, `col = 1`.  Fuel `length + 1` always suffices — `scan_isSome`
below proves the scan returns a result, so the `getD` default is never
taken. -/
def tokenize (l : List Char) : Except LexError (List Token) :=
  (scan (l.length + 1) l 1 1).getD (.error (.unrecognizedChar ' ' 0 0))

/-- The bare constructor tag of a token: the Rust discriminant, as compared
by the repository's `variant_eq!` test macro. -/
inductive TokenKind where
  | identifier | numLiteral | strLiteral | lParen | rParen | lBrace | rBrace
  | arrow | fatArrow | eq | eqEq | lt | gt | ltEq | gtEq | addEq | subEq
  | mulEq | divEq | modEq | rShiftEq | lShiftEq | rShift | lShift | notEq
  | orEq | andEq | xorEq | add | sub | mul | div | mod | addAdd | subSub
  | not | xor | or | orOr | and | andAnd | eof
deriving DecidableEq, Repr

/-- The tag of a token. -/
def Token.kind : Token → TokenKind
  | .identifier .. => .identifier
  | .numLiteral .. => .numLiteral
  | .strLiteral .. => .strLiteral
  | .lParen _ => .lParen
  | .rParen _ => .rParen
  | .lBrace _ => .lBrace
  | .rBrace _ => .rBrace
  | .arrow _ => .arrow
  | .fatArrow _ => .fatArrow
  | .eq _ => .eq
  | .eqEq _ => .eqEq
  | .lt _ => .lt
  | .gt _ => .gt
  | .ltEq _ => .ltEq
  | .gtEq _ => .gtEq
  | .addEq _ => .addEq
  | .subEq _ => .subEq
  | .mulEq _ => .mulEq
  | .divEq _ => .divEq
  | .modEq _ => .modEq
  | .rShiftEq _ => .rShiftEq
  | .lShiftEq _ => .lShiftEq
  | .rShift _ => .rShift
  | .lShift _ => .lShift
  | .notEq _ => .notEq
  | .orEq _ => .orEq
  | .andEq _ => .andEq
  | .xorEq _ => .xorEq
  | .add _ => .add
  | .sub _ => .sub
  | .mul _ => .mul
  | .div _ => .div
  | .mod _ => .mod
  | .addAdd _ => .addAdd
  | .subSub _ => .subSub
  | .not _ => .not
  | .xor _ => .xor
  | .or _ => .or
  | .orOr _ => .orOr
  | .and _ => .and
  | .andAnd _ => .andAnd
  | .eof _ => .eof

/-- Reference row/column bookkeeping, per the spec (§4.1 step 1): every
consumed character advances the column by one; a newline advances the row
and resets the column to its initial value 1. -/
def advancePos (p : Nat × Nat) (c : Char) : Nat × Nat :=
  if c = '\n' then (p.1 + 1, 1) else (p.1, p.2 + 1)

/-- True 1-based source coordinates of the character at index `i`, obtained
by folding the reference bookkeeping over the preceding characters. -/
def truePosAt (l : List Char) (i : Nat) : Nat × Nat :=
  (l.take i).foldl advancePos (1, 1)


/-- The string loop consumes at least the closing quote, so on success the
remaining input is strictly shorter than the input it was given. -/
theorem scanStr_rest_length (l : List Char) (col : Nat) (r : List Char)
    (h : (scanStr l col).2.2 = some r) : r.length < l.length := by
  induction l generalizing col with
  | nil => simp [scanStr] at h
  | cons c t ih =>
    by_cases hc : c = '"'
    · simp [scanStr, hc] at h
      subst h
      simp
    · simp only [scanStr, hc, if_false, if_neg] at h
      exact Nat.lt_succ_of_lt (ih _ h)

/-- The block-comment loop consumes at least one character before stopping. -/
theorem skipBlock_rest_length (l r : List Char) (h : skipBlock l = some r) :
    r.length < l.length := by
  induction l with
  | nil => simp [skipBlock] at h
  | cons a t ih =>
    match t, h with
    | [], h => simp [skipBlock] at h
    | b :: t2, h =>
      rw [skipBlock] at h
      split at h
      · cases h
        simp
      · exact Nat.lt_succ_of_lt (ih h)

/-- Emitting a token does not change whether the scan produced a result. -/
theorem emit_isSome (tok : Token) (r : Option (Except LexError (List Token))) :
    (emit tok r).isSome = r.isSome := by
  match r with
  | none => rfl
  | some (.error _) => rfl
  | some (.ok _) => rfl


/-- Every dispatch of `step` satisfies `StepOK`, by exhausting the arms. -/
theorem step_ok (c : Char) (rest : List Char) (row col : Nat) :
    StepOK c rest row col (step c rest row col) := by
  unfold step
  by_cases h1 : c = ' ' ∨ c = '\t'
  · rw [if_pos h1]
    exact Nat.le_refl _
  rw [if_neg h1]
  by_cases h2 : c = '\n'
  · rw [if_pos h2]
    exact Nat.le_refl _
  rw [if_neg h2]
  by_cases h3 : isIdentStart c = true
  · rw [if_pos h3]
    unfold identStep
    exact ⟨List.Sublist.length_le (List.dropWhile_sublist _), fun p hp => Token.noConfusion hp⟩
  rw [if_neg h3]
  by_cases h4 : c.isDigit = true
  · rw [if_pos h4]
    unfold numStep
    exact ⟨List.Sublist.length_le (List.dropWhile_sublist _), fun p hp => Token.noConfusion hp⟩
  rw [if_neg h4]
  by_cases h5 : c = '"'
  · rw [if_pos h5]
    cases horest : (scanStr rest col).2.2 with
    | some r =>
      exact ⟨Nat.le_of_lt (scanStr_rest_length rest col r horest),
        fun p hp => Token.noConfusion hp⟩
    | none => exact Or.inl ⟨_, rfl⟩
  rw [if_neg h5]
  by_cases h6 : c = '('
  · rw [if_pos h6]
    exact ⟨Nat.le_refl _, fun p hp => Token.noConfusion hp⟩
  rw [if_neg h6]
  by_cases h7 : c = ')'
  · rw [if_pos h7]
    exact ⟨Nat.le_refl _, fun p hp => Token.noConfusion hp⟩
  rw [if_neg h7]
  by_cases h8 : c = '{'
  · rw [if_pos h8]
    exact ⟨Nat.le_refl _, fun p hp => Token.noConfusion hp⟩
  rw [if_neg h8]
  by_cases h9 : c = '}'
  · rw [if_pos h9]
    exact ⟨Nat.le_refl _, fun p hp => Token.noConfusion hp⟩
  rw [if_neg h9]
  by_cases h10 : c = '<'
  · rw [if_pos h10]
    unfold ltStep
    repeat' split
    all_goals exact ⟨by (try simp only [List.length_tail]); omega,
      fun p hp => Token.noConfusion hp⟩
  rw [if_neg h10]
  by_cases h11 : c = '>'
  · rw [if_pos h11]
    unfold gtStep
    repeat' split
    all_goals exact ⟨by (try simp only [List.length_tail]); omega,
      fun p hp => Token.noConfusion hp⟩
  rw [if_neg h11]
  by_cases h12 : c = '+'
  · rw [if_pos h12]
    unfold addStep
    repeat' split
    all_goals exact ⟨by (try simp only [List.length_tail]); omega,
      fun p hp => Token.noConfusion hp⟩
  rw [if_neg h12]
  by_cases h13 : c = '-'
  · rw [if_pos h13]
    unfold subStep
    repeat' split
    all_goals exact ⟨by (try simp only [List.length_tail]); omega,
      fun p hp => Token.noConfusion hp⟩
  rw [if_neg h13]
  by_cases h14 : c = '*'
  · rw [if_pos h14]
    unfold mulStep
    repeat' split
    all_goals exact ⟨by (try simp only [List.length_tail]); omega,
      fun p hp => Token.noConfusion hp⟩
  rw [if_neg h14]
  by_cases h15 : c = '/'
  · rw [if_pos h15]
    unfold divStep
    repeat' split
    all_goals first
      | exact List.Sublist.length_le (List.dropWhile_sublist _)
      | (rename_i heq
         exact Nat.le_of_lt (skipBlock_rest_length _ _ heq))
      | exact Or.inr (Or.inl rfl)
      | exact ⟨by (try simp only [List.length_tail]); omega,
          fun p hp => Token.noConfusion hp⟩
  rw [if_neg h15]
  by_cases h16 : c = '='
  · rw [if_pos h16]
    unfold eqStep
    repeat' split
    all_goals exact ⟨by (try simp only [List.length_tail]); omega,
      fun p hp => Token.noConfusion hp⟩
  rw [if_neg h16]
  by_cases h17 : c = '!'
  · rw [if_pos h17]
    unfold bangStep
    repeat' split
    all_goals exact ⟨by (try simp only [List.length_tail]); omega,
      fun p hp => Token.noConfusion hp⟩
  rw [if_neg h17]
  by_cases h18 : c = '|'
  · rw [if_pos h18]
    unfold orStep
    repeat' split
    all_goals exact ⟨by (try simp only [List.length_tail]); omega,
      fun p hp => Token.noConfusion hp⟩
  rw [if_neg h18]
  by_cases h19 : c = '&'
  · rw [if_pos h19]
    unfold andStep
    repeat' split
    all_goals exact ⟨by (try simp only [List.length_tail]); omega,
      fun p hp => Token.noConfusion hp⟩
  rw [if_neg h19]
  by_cases h20 : c = '^'
  · rw [if_pos h20]
    unfold xorStep
    repeat' split
    all_goals exact ⟨by (try simp only [List.length_tail]); omega,
      fun p hp => Token.noConfusion hp⟩
  rw [if_neg h20]
  by_cases h21 : c = '%'
  · rw [if_pos h21]
    unfold modStep
    repeat' split
    all_goals exact ⟨by (try simp only [List.length_tail]); omega,
      fun p hp => Token.noConfusion hp⟩
  rw [if_neg h21]
  refine Or.inr (Or.inr ⟨rfl, ?_⟩)
  simp only [recognized, h2, h3, h4, h5, h6, h7, h8, h9, h10, h11, h12, h13, h14, h15,
    h16, h17, h18, h19, h20, h21, decide_eq_false, Bool.or_false, Bool.or_eq_false_iff]
  push_neg at h1
  simp [h1.1, h1.2, Bool.not_eq_true] at h3 h4 ⊢

/-- A dispatch step that pushes a token never lengthens the remaining input. -/
theorem step_tok_length (c : Char) (rest : List Char) (row col : Nat)
    (t : Token) (rest' : List Char) (row' col' : Nat)
    (h : step c rest row col = .tok t rest' row' col') : rest'.length ≤ rest.length := by
  have hs := step_ok c rest row col
  rw [h] at hs
  exact hs.1

/-- A dispatch step that skips (whitespace or comment) never lengthens the
remaining input. -/
theorem step_skip_length (c : Char) (rest : List Char) (row col : Nat)
    (rest' : List Char) (row' col' : Nat)
    (h : step c rest row col = .skip rest' row' col') : rest'.length ≤ rest.length := by
  have hs := step_ok c rest row col
  rw [h] at hs
  exact hs

/-- The dispatch never pushes an `Eof` token: `Eof` is appended only after
the loop ends. -/
theorem step_tok_ne_eof (c : Char) (rest : List Char) (row col : Nat)
    (t : Token) (rest' : List Char) (row' col' : Nat)
    (h : step c rest row col = .tok t rest' row' col') : ∀ p, t ≠ .eof p := by
  have hs := step_ok c rest row col
  rw [h] at hs
  exact hs.2

/-- The only panics of the dispatch are the three error kinds; the
unknown-char panic reports exactly the dispatched character and the current
counters, and fires only on a character outside the recognized alphabet. -/
theorem step_fail (c : Char) (rest : List Char) (row col : Nat) (e : LexError)
    (h : step c rest row col = .fail e) :
    (∃ k, e = .unterminatedString row k) ∨
    e = .unterminatedBlockComment row col ∨
    (e = .unrecognizedChar c row col ∧ recognized c = false) := by
  have hs := step_ok c rest row col
  rw [h] at hs
  exact hs

/-- Fuel sufficiency: every iteration of the main loop consumes at least one
character, so any fuel exceeding the input length produces a result. -/
theorem scan_isSome (fuel : Nat) (l : List Char) (row col : Nat) (h : l.length < fuel) :
    (scan fuel l row col).isSome := by
  induction fuel generalizing l row col with
  | zero => exact absurd h (Nat.not_lt_zero _)
  | succ fuel ih =>
    cases l with
    | nil => rfl
    | cons c rest =>
      have hrest : rest.length < fuel := by
        simp only [List.length_cons] at h
        omega
      cases hs : step c rest row col with
      | tok t rest' row' col' =>
        simp only [scan, hs, emit_isSome]
        exact ih _ _ _ (Nat.lt_of_le_of_lt (step_tok_length _ _ _ _ _ _ _ _ hs) hrest)
      | skip rest' row' col' =>
        simp only [scan, hs]
        exact ih _ _ _ (Nat.lt_of_le_of_lt (step_skip_length _ _ _ _ _ _ _ hs) hrest)
      | fail e =>
        simp only [scan, hs]
        rfl


/-- Inversion: a successful emit is a cons onto a successful tail. -/
theorem emit_eq_ok (tok : Token) (r : Option (Except LexError (List Token)))
    (ts : List Token) (h : emit tok r = some (.ok ts)) :
    ∃ ts0, r = some (.ok ts0) ∧ ts = tok :: ts0 := by
  cases r with
  | none => cases h
  | some x =>
    cases x with
    | error e => cases h
    | ok ts0 =>
      simp only [emit, Option.some.injEq, Except.ok.injEq] at h
      exact ⟨ts0, rfl, h.symm⟩

/-- Inversion: emit only returns an error when its tail does. -/
theorem emit_eq_error (tok : Token) (r : Option (Except LexError (List Token)))
    (e : LexError) (h : emit tok r = some (.error e)) : r = some (.error e) := by
  cases r with
  | none => cases h
  | some x =>
    cases x with
    | error e0 =>
      simp only [emit, Option.some.injEq, Except.error.injEq] at h
      rw [h]
    | ok ts0 => cases h

/-- Every error the scan loop can return is one of the three panic kinds,
and the unknown-char error carries a character outside the recognized
alphabet. -/
theorem scan_error_shape (fuel : Nat) (l : List Char) (row col : Nat) (e : LexError)
    (h : scan fuel l row col = some (.error e)) :
    (∃ r k, e = .unterminatedString r k) ∨ (∃ r k, e = .unterminatedBlockComment r k) ∨
    (∃ ch r k, e = .unrecognizedChar ch r k ∧ recognized ch = false) := by
  induction fuel generalizing l row col with
  | zero => rw [scan] at h; cases h
  | succ fuel ih =>
    cases l with
    | nil => simp [scan] at h
    | cons c rest =>
      cases hs : step c rest row col with
      | tok t rest' row' col' =>
        simp only [scan, hs] at h
        exact ih _ _ _ (emit_eq_error _ _ _ h)
      | skip rest' row' col' =>
        simp only [scan, hs] at h
        exact ih _ _ _ h
      | fail e0 =>
        simp only [scan, hs, Option.some.injEq, Except.error.injEq] at h
        subst h
        rcases step_fail _ _ _ _ _ hs with ⟨k, hk⟩ | hk | ⟨hk, hr⟩
        · exact Or.inl ⟨_, _, hk⟩
        · exact Or.inr (Or.inl ⟨_, _, hk⟩)
        · exact Or.inr (Or.inr ⟨_, _, _, hk, hr⟩)

/-- Every successful scan ends in exactly one `Eof` token: the loop itself
never pushes `Eof`, and the final push appends it. -/
theorem scan_ok_eof (fuel : Nat) (l : List Char) (row col : Nat) (ts : List Token)
    (h : scan fuel l row col = some (.ok ts)) :
    ∃ ts' p, ts = ts' ++ [.eof p] ∧ ∀ t ∈ ts', ∀ q, t ≠ .eof q := by
  induction fuel generalizing l row col ts with
  | zero => rw [scan] at h; cases h
  | succ fuel ih =>
    cases l with
    | nil =>
      simp only [scan, Option.some.injEq, Except.ok.injEq] at h
      subst h
      exact ⟨[], _, rfl, fun t ht => absurd ht (List.not_mem_nil _)⟩
    | cons c rest =>
      cases hs : step c rest row col with
      | tok t rest' row' col' =>
        simp only [scan, hs] at h
        obtain ⟨ts0, hr, hts⟩ := emit_eq_ok _ _ _ h
        obtain ⟨ts'', p, hts0, hne⟩ := ih _ _ _ _ hr
        refine ⟨t :: ts'', p, ?_, ?_⟩
        · rw [hts, hts0, List.cons_append]
        · intro x hx q
          rcases List.mem_cons.mp hx with hx | hx
          · subst hx
            exact step_tok_ne_eof _ _ _ _ _ _ _ _ hs q
          · exact hne x hx q
      | skip rest' row' col' =>
        simp only [scan, hs] at h
        exact ih _ _ _ _ h
      | fail e =>
        simp [scan, hs] at h

/-- A scan over whitespace only (space, tab, newline) emits no token before
the final `Eof`. -/
theorem scan_ws (fuel : Nat) (l : List Char) (row col : Nat)
    (hws : ∀ c ∈ l, c = ' ' ∨ c = '\t' ∨ c = '\n') (h : l.length < fuel) :
    ∃ p, scan fuel l row col = some (.ok [.eof p]) := by
  induction fuel generalizing l row col with
  | zero => exact absurd h (Nat.not_lt_zero _)
  | succ fuel ih =>
    cases l with
    | nil => exact ⟨_, rfl⟩
    | cons c rest =>
      have hrest : rest.length < fuel := by
        simp only [List.length_cons] at h
        omega
      have hws' : ∀ x ∈ rest, x = ' ' ∨ x = '\t' ∨ x = '\n' :=
        fun x hx => hws x (List.mem_cons_of_mem _ hx)
      rcases hws c (List.mem_cons_self _ _) with rfl | rfl | rfl
      · have hstep : step ' ' rest row col = .skip rest row (col + 1) := rfl
        rw [scan, hstep]
        exact ih _ _ _ hws' hrest
      · have hstep : step '\t' rest row col = .skip rest row (col + 1) := rfl
        rw [scan, hstep]
        exact ih _ _ _ hws' hrest
      · have hstep : step '\n' rest row col = .skip rest (row + 1) 2 := rfl
        rw [scan, hstep]
        exact ih _ _ _ hws' hrest

/-- When the remaining input contains a closing quote, the string loop
consumes exactly through the first `"`: the payload is every character
before it (newlines and backslashes included verbatim), `col` advances by
the number of consumed characters, and scanning continues after the
quote. -/
theorem scanStr_of_mem (l : List Char) (col : Nat) (hq : '"' ∈ l) :
    scanStr l col = (l.takeWhile (fun c => c ≠ '"'),
      col + (l.takeWhile (fun c => c ≠ '"')).length + 1,
      some ((l.dropWhile (fun c => c ≠ '"')).tail)) := by
  induction l generalizing col with
  | nil => cases hq
  | cons c t ih =>
    by_cases hc : c = '"'
    · subst hc
      rw [scanStr]
      simp [List.takeWhile_cons, List.dropWhile_cons]
    · have hq' : '"' ∈ t := by
        rcases List.mem_cons.mp hq with h | h
        · exact absurd h.symm hc
        · exact h
      rw [scanStr, if_neg hc, ih (col + 1) hq']
      simp only [List.takeWhile_cons, List.dropWhile_cons, hc, decide_not, Prod.mk.injEq]
      simp [hc, List.length_cons]
      omega

/-- The result of `tokenize` is whatever the fully fuelled scan returns. -/
theorem tokenize_eq_of_scan (l : List Char) (r : Except LexError (List Token))
    (h : scan (l.length + 1) l 1 1 = some r) : tokenize l = r := by
  rw [tokenize, h]
  rfl

/-- C1: evaluating the scanner on `"1 /* multi\nline */ 2"` shows the claim's
expected token list is NOT produced: because the block-comment loop breaks on
`(Some('*'), Some('/'))` without consuming the peeked `/`, the main loop
re-reads that `/` and emits a `Div` token for it, so the output is
`NumLiteral("1"), Div, NumLiteral("2"), Eof` rather than
`NumLiteral("1"), NumLiteral("2"), Eof`.  The unterminated-input half of the
claim does hold: `"1 /* unterminated"` fails with the
unterminated-block-comment error at the `/`. -/
theorem claim1_block_comment_rescan :
    tokenize "1 /* multi\nline */ 2".data =
      .ok [.numLiteral ⟨(1, 1), (1, 1)⟩ ['1'], .div ⟨(1, 3), (1, 3)⟩,
        .numLiteral ⟨(1, 5), (1, 5)⟩ ['2'], .eof ⟨(1, 6), (1, 6)⟩] ∧
    tokenize "1 /* unterminated".data = .error (.unterminatedBlockComment 1 3) :=
  ⟨rfl, rfl⟩

/-- C2: evaluating the scanner on `"a\nb"` shows `b` is recorded at row 2,
column 2 — not at the line-initial column value 1 that the first character of
the first line receives — because the `\n` arm resets `col` to 1 but the
loop-footer `col += 1` still runs before the next character is scanned. -/
theorem claim2_newline_column_reset :
    tokenize "a\nb".data =
      .ok [.identifier ⟨(1, 1), (1, 1)⟩ ['a'], .identifier ⟨(2, 2), (2, 2)⟩ ['b'],
        .eof ⟨(2, 3), (2, 3)⟩] ∧
    (2, 2) ≠ ((2, 1) : Nat × Nat) :=
  ⟨rfl, by decide⟩

/-- C3: the row/col counters do not track the cursor exactly.  On `"== ="`
the lookahead `next_and!` consumes the second `=` of `==` without touching
`col`, so the later lone `=` (input index 3, true coordinates `(1, 4)` by the
reference bookkeeping `truePosAt`) is recorded at column 3; the `EqEq` span
even ends at row 2 of a one-line input. -/
theorem claim3_col_tracking :
    tokenize "== =".data =
      .ok [.eqEq ⟨(1, 1), (2, 2)⟩, .eq ⟨(1, 3), (1, 3)⟩, .eof ⟨(1, 4), (1, 4)⟩] ∧
    "== =".data.get? 3 = some '=' ∧
    truePosAt "== =".data 3 = (1, 4) ∧
    (1, 3) ≠ ((1, 4) : Nat × Nat) :=
  ⟨rfl, rfl, rfl, by decide⟩

/-- C4: token spans do not partition the meaningful input.  On
`"1 /* x */ 2"` the scanner emits a `Div` token whose span `(1, 3)` is the
true position of the comment's own `/` (input index 2), so a comment
character is covered by a token; and the `NumLiteral "2"` is recorded at
column 5 although `2` (input index 10) truly sits at column 11, so the spans
cannot reconstruct the non-comment content. -/
theorem claim4_span_partition :
    tokenize "1 /* x */ 2".data =
      .ok [.numLiteral ⟨(1, 1), (1, 1)⟩ ['1'], .div ⟨(1, 3), (1, 3)⟩,
        .numLiteral ⟨(1, 5), (1, 5)⟩ ['2'], .eof ⟨(1, 6), (1, 6)⟩] ∧
    "1 /* x */ 2".data.get? 2 = some '/' ∧
    truePosAt "1 /* x */ 2".data 2 = (1, 3) ∧
    "1 /* x */ 2".data.get? 10 = some '2' ∧
    truePosAt "1 /* x */ 2".data 10 = (1, 11) :=
  ⟨rfl, rfl, rfl, rfl, rfl⟩

/-- C5: on the space-separated concatenation of the 22 multi-character
operator texts, the scanner returns exactly the claimed kinds in order:
Arrow, FatArrow, EqEq, LtEq, GtEq, AddEq, SubEq, MulEq, DivEq, ModEq,
RShiftEq, LShiftEq, RShift, LShift, NotEq, OrEq, AndEq, XorEq, AddAdd,
SubSub, OrOr, AndAnd, EndOfInput. -/
theorem claim5_operator_kinds :
    (tokenize "-> => == <= >= += -= *= /= %= >>= <<= >> << != |= &= ^= ++ -- || &&".data).map
        (List.map Token.kind) =
      .ok [.arrow, .fatArrow, .eqEq, .ltEq, .gtEq, .addEq, .subEq, .mulEq, .divEq, .modEq,
        .rShiftEq, .lShiftEq, .rShift, .lShift, .notEq, .orEq, .andEq, .xorEq, .addAdd,
        .subSub, .orOr, .andAnd, .eof] :=
  rfl

/-- C6: longest match — `"<<="` produces a single `LShiftEq` token followed
by `Eof`, never `LShift`+`Eq` nor `Lt`+`LtEq`. -/
theorem claim6_longest_match :
    tokenize "<<=".data = .ok [.lShiftEq ⟨(1, 1), (3, 3)⟩, .eof ⟨(1, 2), (1, 2)⟩] :=
  rfl

/-- C7: the failure does NOT report the row and column of the offending
location.  On `"== @"` the scanner halts with `UnrecognizedCharacter '@'`
reported at `(1, 3)`, while the offending `@` (input index 3) truly sits at
`(1, 4)` by the reference bookkeeping `truePosAt`: the `next_and!` lookahead
consumed the second `=` of `==` without incrementing `col`, and the panic
reports those drifted counters.  (The halt-on-first-condition and
three-error-taxonomy parts of the claim do hold — see `scan_error_shape` —
but the claimed location precision is false of the code.) -/
theorem claim7_error_location_divergence :
    tokenize "== @".data = .error (.unrecognizedChar '@' 1 3) ∧
    "== @".data.get? 3 = some '@' ∧
    truePosAt "== @".data 3 = (1, 4) ∧
    (1, 3) ≠ ((1, 4) : Nat × Nat) :=
  ⟨rfl, rfl, rfl, by decide⟩

/-- C8: a whitespace-only input (spaces, tabs, newlines; in particular the
empty input) tokenizes to exactly one token, `Eof`; and every successful
tokenization ends in exactly one `Eof`, which is the final element and
occurs nowhere earlier. -/
theorem claim8_eof_sentinel :
    (∀ l : List Char, (∀ c ∈ l, c = ' ' ∨ c = '\t' ∨ c = '\n') →
       ∃ p, tokenize l = .ok [.eof p]) ∧
    (∀ (l : List Char) (ts : List Token), tokenize l = .ok ts →
       ∃ ts' p, ts = ts' ++ [.eof p] ∧ ∀ t ∈ ts', ∀ q, t ≠ .eof q) := by
  constructor
  · intro l hws
    obtain ⟨p, hp⟩ := scan_ws (l.length + 1) l 1 1 hws (Nat.lt_succ_self _)
    exact ⟨p, tokenize_eq_of_scan _ _ hp⟩
  · intro l ts ht
    cases hr : scan (l.length + 1) l 1 1 with
    | none =>
      have hsome := scan_isSome (l.length + 1) l 1 1 (Nat.lt_succ_self _)
      rw [hr] at hsome
      cases hsome
    | some r =>
      have he := tokenize_eq_of_scan l r hr
      have hts : r = .ok ts := by rw [← he, ht]
      subst hts
      exact scan_ok_eof _ _ _ _ _ hr

/-- C8 witness: the whitespace input `" \n\t"` yields only `Eof`, and the
successful tokenization of `"a"` ends in its single `Eof`. -/
theorem claim8_eof_sentinel_witness :
    (∃ p, tokenize (' ' :: '\n' :: '\t' :: []) = .ok [.eof p]) ∧
    (∃ ts' p,
       [Token.identifier ⟨(1, 1), (1, 1)⟩ ['a'], Token.eof ⟨(1, 2), (1, 2)⟩] =
         ts' ++ [.eof p] ∧ ∀ t ∈ ts', ∀ q, t ≠ .eof q) :=
  ⟨claim8_eof_sentinel.1 (' ' :: '\n' :: '\t' :: []) (by decide),
   claim8_eof_sentinel.2 ('a' :: []) _ rfl⟩

/-- C9: the scan terminates on every finite input: fuel `length + 1` always
suffices for the main loop (each iteration consumes at least one character),
and the inner comment/string/munching loops are structurally recursive. -/
theorem claim9_termination (l : List Char) (row col : Nat) :
    (scan (l.length + 1) l row col).isSome :=
  scan_isSome (l.length + 1) l row col (Nat.lt_succ_self _)

/-- C10: string literals may span lines and receive no escape processing:
whenever the input after the opening quote contains a closing `"`, the
string loop succeeds, its payload being exactly the characters before that
quote (newlines and backslashes verbatim); concretely, `"\"a\nb\""`
tokenizes to a `StrLiteral` with payload `a`, newline, `b`, and
`"\"a\\nb\""` keeps the backslash and `n` as two ordinary characters. -/
theorem claim10_string_literals :
    (∀ (l : List Char) (col : Nat), '"' ∈ l →
       scanStr l col = (l.takeWhile (fun c => c ≠ '"'),
         col + (l.takeWhile (fun c => c ≠ '"')).length + 1,
         some ((l.dropWhile (fun c => c ≠ '"')).tail))) ∧
    tokenize "\"a\nb\"".data =
      .ok [.strLiteral ⟨(1, 1), (1, 5)⟩ ['a', '\n', 'b'], .eof ⟨(1, 6), (1, 6)⟩] ∧
    tokenize "\"a\\nb\"".data =
      .ok [.strLiteral ⟨(1, 1), (1, 6)⟩ ['a', '\\', 'n', 'b'], .eof ⟨(1, 7), (1, 7)⟩] :=
  ⟨fun l col hq => scanStr_of_mem l col hq, rfl, rfl⟩

/-- C10 witness: the string body `a`, newline, `b`, closing quote, `x`
scans to payload `a`, newline, `b` with the `x` left over. -/
theorem claim10_string_literals_witness :
    scanStr ('a' :: '\n' :: 'b' :: '"' :: 'x' :: []) 1 = (['a', '\n', 'b'], 5, some ['x']) :=
  (claim10_string_literals.1 ('a' :: '\n' :: 'b' :: '"' :: 'x' :: []) 1 (by decide)).trans
    (by decide)

end Healexer
